import Mathlib

/-!
Verification development for the soul-learning-app repository.

The TypeScript sources are shallowly embedded: each definition carries a doc
comment naming the source file (and lines) it is translated from.  Code that
lives in the external `@opensouls/core` / `@opensouls/engine` packages (only
their callers are in the repository) is modelled from the specification and
marked `Modelled from the spec:`.
-/

namespace SoulApp

/-- Message roles of a conversation entry (ChatMessageRoleEnum of the framework:
system, user, assistant). -/
inductive Role where
  | system
  | user
  | assistant
deriving DecidableEq, Repr

/-- A single conversation-log entry: role, textual content, and the
`metadata.type` tag the cognitive steps attach (other metadata fields are
prompt-side diagnostics and are not modelled). -/
structure MemoryEntry where
  role : Role
  content : String
  mtype : Option String
deriving DecidableEq, Repr

/-- The framework conversation state: the construction-time soul name and the
ordered entry list (`new WorkingMemory({ soulName, memories })`). -/
structure WorkingMemory where
  soulName : String
  memories : List MemoryEntry
deriving DecidableEq, Repr

/-- Modelled from the spec: `WorkingMemory.withMemory` of `@opensouls/core` is
not under src/ (only callers are).  Spec 3 and 4.1: the transformation returns
a new WorkingMemory whose entry sequence is the previous sequence with the
entry appended, and the identity (soulName) is carried forward unchanged. -/
def WorkingMemory.withMemory (m : WorkingMemory) (e : MemoryEntry) : WorkingMemory :=
  { soulName := m.soulName, memories := m.memories ++ [e] }

/-! ## C1: forking and mutation

`SimpleWorkingMemory` of src/soul-learning-app/src/standalone-demo.ts holds a
mutable JS object.  To capture object identity and in-place mutation we embed a
heap: object id (Nat) maps to the entry list the object currently holds. -/

/-- JS object heap for conversation-state objects: position `i` is the entry
list currently held by object `i`. -/
abbrev Heap := List (List MemoryEntry)

/-- From standalone-demo.ts lines 40-43: `addMemory` pushes the entry onto
`this.memories` in place and returns `this` (the same object id). -/
def simpleAddMemory (h : Heap) (self : Nat) (e : MemoryEntry) : Heap × Nat :=
  (List.set h self ((List.getD h self []) ++ [e]), self)

/-- Modelled from the spec: the core `withMemory` (not under src/) allocates a
fresh object whose entries are the receiver entries plus the new one; the
receiver object is untouched (spec 4.1: calling withMemory never mutates the
receiver; forks share structure and do not interfere). -/
def coreWithMemoryAlloc (h : Heap) (self : Nat) (e : MemoryEntry) : Heap × Nat :=
  (h ++ [(List.getD h self []) ++ [e]], List.length h)

/-- Concrete user entry used in counterexamples. -/
def entryA : MemoryEntry := ⟨Role.user, "a", none⟩

/-- Concrete user entry used in counterexamples. -/
def entryB : MemoryEntry := ⟨Role.user, "b", none⟩

/-! ## C7: the pass-through stream adapter -/

/-- From src/soul-learning-app/soul/cognitiveSteps/externalDialog.ts lines
119-130: the `processStream` generator iterates the incoming stream and yields
every chunk, in order (the chunk counter only drives console logging). -/
def processStream : List String → List String
  | [] => []
  | c :: rest => c :: processStream rest

/-! ## C6: the soul memory store -/

/-- JSON-compatible values stored in the soul memory. -/
inductive Json where
  | str (s : String)
  | num (n : Int)
  | jsonBool (b : Bool)
  | null
  | arr (elems : List Json)
  | obj (fields : List (String × Json))

/-- JS `Map.set` / JSON object update on an association list: replace the first
binding of the key in place, or append a new binding. -/
def setKey : List (String × Json) → String → Json → List (String × Json)
  | [], k, v => [(k, v)]
  | (k1, v1) :: rest, k, v =>
    if k1 = k then (k, v) :: rest else (k1, v1) :: setKey rest k v

/-- JS `Map.get` on an association list. -/
def lookupKey : List (String × Json) → String → Option Json
  | [], _ => none
  | (k1, v1) :: rest, k => if k1 = k then some v1 else lookupKey rest k

/-- The LocalSoulRunner memory system (src/soul-learning-app/src/local-soul-runner.ts):
`store` is the in-memory `soulMemoryStore` Map (line 52), `file` the contents of
the backing JSON file (`.soul-memories/<soul>-memory.json`), `none` when the
file does not exist yet.  JSON serialization is faithful on JSON-compatible
values, so the file is modelled as holding the serialized association list. -/
structure SoulMemoryStore where
  store : List (String × Json)
  file : Option (List (String × Json))

/-- From local-soul-runner.ts lines 105-122 (`saveMemoriesToFile`): every store
entry is serialized and written to the backing file. -/
def saveMemoriesToFile (s : SoulMemoryStore) : SoulMemoryStore :=
  { s with file := some s.store }

/-- From local-soul-runner.ts lines 514-519 (`getSoulMemoryInterface().set`):
writes the Map and then saves the file before returning (write-through). -/
def SoulMemoryStore.set (s : SoulMemoryStore) (k : String) (v : Json) : SoulMemoryStore :=
  saveMemoriesToFile { s with store := setKey s.store k v }

/-- From local-soul-runner.ts lines 505-513 (`getSoulMemoryInterface().get`). -/
def SoulMemoryStore.get (s : SoulMemoryStore) (k : String) : Option Json :=
  lookupKey s.store k

/-- From local-soul-runner.ts lines 77-100 (`loadMemoriesFromFile`): parse the
file (missing file: start fresh) and `set` each parsed entry into the Map. -/
def loadMemoriesFromFile (file : Option (List (String × Json))) : SoulMemoryStore :=
  { store := (file.getD []).foldl (fun acc kv => setKey acc kv.1 kv.2) []
    file := file }

/-- A simulated process restart: a fresh runner constructed over the same
backing file (constructor, local-soul-runner.ts lines 55-72). -/
def SoulMemoryStore.restart (s : SoulMemoryStore) : SoulMemoryStore :=
  loadMemoriesFromFile s.file

theorem lookupKey_setKey_self (l : List (String × Json)) (k : String) (v : Json) :
    lookupKey (setKey l k v) k = some v := by
  induction l with
  | nil => simp [setKey, lookupKey]
  | cons hd tl ih =>
    by_cases h : hd.1 = k
    · simp [setKey, h, lookupKey]
    · simp [setKey, h, lookupKey, ih]

theorem setKey_keys (l : List (String × Json)) (k : String) (v : Json) :
    (setKey l k v).map Prod.fst = if k ∈ l.map Prod.fst then l.map Prod.fst
      else l.map Prod.fst ++ [k] := by
  induction l with
  | nil => simp [setKey]
  | cons hd tl ih =>
    by_cases h : hd.1 = k
    · simp [setKey, h]
    · have hne : ¬ k = hd.1 := fun hh => h hh.symm
      by_cases hm : k ∈ tl.map Prod.fst
      · simp [setKey, h, ih, hm, hne]
      · simp [setKey, h, ih, hm, hne]

theorem setKey_nodup (l : List (String × Json)) (k : String) (v : Json)
    (h : (l.map Prod.fst).Nodup) : ((setKey l k v).map Prod.fst).Nodup := by
  rw [setKey_keys]
  by_cases hm : k ∈ l.map Prod.fst
  · simpa [hm] using h
  · simp only [hm, if_false]
    refine List.Nodup.append h (List.nodup_singleton k) ?_
    intro a ha hb
    simp only [List.mem_singleton] at hb
    exact hm (hb ▸ ha)

theorem setKey_of_not_mem (l : List (String × Json)) (k : String) (v : Json)
    (h : k ∉ l.map Prod.fst) : setKey l k v = l ++ [(k, v)] := by
  induction l with
  | nil => simp [setKey]
  | cons hd tl ih =>
    simp only [List.map_cons, List.mem_cons] at h
    push_neg at h
    have h1 : ¬ hd.1 = k := fun hh => h.1 hh.symm
    simp [setKey, h1, ih h.2]

theorem foldl_setKey_of_nodup (l acc : List (String × Json))
    (h : ((acc ++ l).map Prod.fst).Nodup) :
    l.foldl (fun a kv => setKey a kv.1 kv.2) acc = acc ++ l := by
  induction l generalizing acc with
  | nil => simp
  | cons hd tl ih =>
    have hnotin : hd.1 ∉ acc.map Prod.fst := by
      rw [List.map_append, List.nodup_append] at h
      intro hmem
      exact h.2.2 hmem (by simp)
    rw [List.foldl_cons, setKey_of_not_mem acc hd.1 hd.2 hnotin]
    have h2 : (((acc ++ [hd]) ++ tl).map Prod.fst).Nodup := by
      simpa using h
    have := ih (acc ++ [hd]) h2
    simpa using this

/-! ## C2 and C4: cognitive-step post-processing and decision validation -/

/-- Error taxonomy of spec 7 as far as the executor raises it. -/
inductive StepError where
  | validation
  | processor
deriving DecidableEq, Repr

/-- Whether the second character list begins with the first one.  (Character
lists are used instead of the String library loops so that every definition
evaluates by kernel reduction.) -/
def listBeginsWith : List Char → List Char → Bool
  | [], _ => true
  | _ :: _, [] => false
  | p :: ps, c :: cs => if p = c then listBeginsWith ps cs else false

/-- From internalMonologue.ts lines 69-73: the raw thought is cleaned of a
leading (case-insensitive) entity-name, an optional colon, and any following
whitespace (the regex new RegExp of entityName followed by colon-question-mark
and whitespace-star, case-insensitive, anchored at the start). -/
def stripEntityHead (entityName thought : String) : String :=
  if listBeginsWith (entityName.data.map Char.toLower) (thought.data.map Char.toLower) then
    let rest := thought.data.drop entityName.data.length
    let rest1 := match rest with
      | c :: cs => if c = ':' then cs else rest
      | [] => rest
    String.mk (rest1.dropWhile Char.isWhitespace)
  else thought

/-- From internalMonologue.ts lines 65-99 (default path, no caller-supplied
postProcess): the step appends one assistant entry whose content is
entityName, space, verb, colon-space, cleaned thought, tagged
internal_monologue; the exposed value is the cleaned thought. -/
def internalMonologuePost (verb : String) (m : WorkingMemory) (thought : String) :
    WorkingMemory × String :=
  let clean := stripEntityHead m.soulName thought
  (m.withMemory ⟨Role.assistant, m.soulName ++ " " ++ verb ++ ": " ++ clean,
      some "internal_monologue"⟩, clean)

/-- From externalDialog.ts lines 94-110 (default non-reasoning path, no
caller-supplied postProcess): append one assistant entry holding the cleaned
response.  `strip` stands for `stripEntityAndVerb` of `@opensouls/core`, which
is not under src/ and is therefore kept abstract. -/
def externalDialogPost (strip : String → String) (m : WorkingMemory) (response : String) :
    WorkingMemory × String :=
  let clean := strip response
  (m.withMemory ⟨Role.assistant, clean, none⟩, clean)

/-- From decision.ts lines 85-116 (default path): the decision entry says
entityName decided: choice, tagged decision; the exposed value is the choice. -/
def decisionPost (question : String) (choices : List String) (m : WorkingMemory)
    (choice : String) : WorkingMemory × String :=
  (m.withMemory ⟨Role.assistant, m.soulName ++ " decided: " ++ choice,
      some "decision"⟩, choice)

/-- Modelled from the spec: the executor (`createCognitiveStep` of
`@opensouls/core`, not under src/) dispatches the command and validates the
structured response against the declared schema, failing with ValidationError
and no partial commit on mismatch (spec 4.2, 7).  For decision.ts the schema is
`z.enum(options.choices)` (line 42): exactly one label of the fixed set. -/
def runDecision (m : WorkingMemory) (question : String) (choices : List String)
    (response : String) : Except StepError (WorkingMemory × String) :=
  if response ∈ choices then Except.ok (decisionPost question choices m response)
  else Except.error StepError.validation

/-- A minimal concrete WorkingMemory used by witnesses. -/
def wm0 : WorkingMemory := ⟨"Scholar", []⟩

/-- From mentalQuery.ts lines 99-151 (unstructured path; when
options.structuredResponse is set the structured payload is rendered to text,
modelled here by the scripted response string itself).  Note mentalQuery.ts
accepts no caller postProcess option: one supplied by a caller is ignored. -/
def mentalQueryPost (verb : String) (m : WorkingMemory) (response : String) :
    WorkingMemory × String :=
  (m.withMemory ⟨Role.assistant, m.soulName ++ " " ++ verb ++ ": " ++ response,
      some "mental_query"⟩, response)

/-- From perceive.ts lines 104-155 (a structured response is rendered to
perceptionContent; modelled by the scripted response string). -/
def perceivePost (m : WorkingMemory) (response : String) : WorkingMemory × String :=
  (m.withMemory ⟨Role.assistant, m.soulName ++ " perceives: " ++ response,
      some "perception"⟩, response)

/-- From reflect.ts lines 127-176 (a deep structured response is rendered to
reflectionContent; modelled by the scripted response string). -/
def reflectPost (m : WorkingMemory) (response : String) : WorkingMemory × String :=
  (m.withMemory ⟨Role.assistant, m.soulName ++ " reflects: " ++ response,
      some "reflection"⟩, response)

/-- From brainstorm.ts lines 85-124 (the structured idea list is rendered to
formattedIdeas; modelled by the scripted response string). -/
def brainstormPost (m : WorkingMemory) (response : String) : WorkingMemory × String :=
  (m.withMemory ⟨Role.assistant, m.soulName ++ " brainstormed: " ++ response,
      some "brainstorm"⟩, response)

/-! ## The mental-process embedding (initialProcess and the subprocess files)

A mental process is embedded as a function over `PState`.  The Processor call
of each cognitive step (spec 4.2 step 2) is resolved against a pre-scripted
list of responses; an exhausted script is a ProcessorError.  `speak` effects
(the Action Bus) are accumulated; `log` effects are diagnostics only and are
not modelled.

A cognitive step resolves to a [memory, value] pair (spec 3 CognitiveStepResult;
LOCAL_RUNNER_GUIDE.md line 62 and every runner file destructure it).  Where
src/unnamed/part_001 and part_002 bind the result without destructuring and
only pass it along the memory position, the embedding threads the memory
component; where the un-destructured pair is *compared against a string* —
the switch of part_001 line 116 and the synthesize_now test of part_002 line
118 — the comparison semantics matters, and the switch is modelled on the
pair itself (`JsVal` below, claim C3): a JS array is never strictly equal to
a string, so those comparisons cannot succeed in the source.  For the loop
bound of claim C10 this only matters a fortiori: a break that cannot fire
never lengthens the loop. -/

/-- State threaded through a mental process. -/
structure PState where
  wm : WorkingMemory
  responses : List String
  soulMem : List (String × Json)
  speaks : List String

/-- Modelled from the spec: dispatching a command to the Processor resolves
the next scripted response; an exhausted script is a ProcessorError. -/
def takeResponse (st : PState) : Except StepError (PState × String) :=
  match st.responses with
  | [] => Except.error StepError.processor
  | r :: rest => Except.ok ({ st with responses := rest }, r)

/-- `speak` action of `useActions`: forwards the text to the Action Bus. -/
def speakVal (st : PState) (v : String) : PState :=
  { st with speaks := st.speaks ++ [v] }

/-- JS `(value as number) || 0` coercion used on soul-memory reads. -/
def getIntJson : Option Json → Int
  | some (Json.num n) => n
  | _ => 0

/-- internalMonologue invoked with the logging caller postProcess used by
learningProcess step 5: the caller postProcess receives the cleaned thought
(internalMonologue.ts lines 93-96) and appends it as a bare assistant entry. -/
def stepIMCustomRaw (st : PState) : Except StepError (PState × String) := do
  let (st1, r) ← takeResponse st
  let clean := stripEntityHead st1.wm.soulName r
  Except.ok ({ st1 with wm := st1.wm.withMemory ⟨Role.assistant, clean, none⟩ }, clean)

/-- externalDialog invoked with its default postProcess (non-reasoning). -/
def stepExternalDialog (strip : String → String) (st : PState) :
    Except StepError (PState × String) := do
  let (st1, r) ← takeResponse st
  let p := externalDialogPost strip st1.wm r
  Except.ok ({ st1 with wm := p.1 }, p.2)

/-- mentalQuery invocation. -/
def stepMentalQuery (verb : String) (st : PState) :
    Except StepError (PState × String) := do
  let (st1, r) ← takeResponse st
  let p := mentalQueryPost verb st1.wm r
  Except.ok ({ st1 with wm := p.1 }, p.2)

/-- perceive invocation. -/
def stepPerceive (st : PState) : Except StepError (PState × String) := do
  let (st1, r) ← takeResponse st
  let p := perceivePost st1.wm r
  Except.ok ({ st1 with wm := p.1 }, p.2)

/-- decision invocation with the default postProcess, validated by the
spec-modelled executor (`runDecision`). -/
def stepDecision (q : String) (choices : List String) (st : PState) :
    Except StepError (PState × String) := do
  let (st1, r) ← takeResponse st
  match runDecision st1.wm q choices r with
  | Except.ok p => Except.ok ({ st1 with wm := p.1 }, p.2)
  | Except.error e => Except.error e

/-- From src/unnamed/part_002 lines 49-54: maxQuestions is 10 for exhaustive
depth, 5 for comprehensive, 3 otherwise. -/
def maxQuestionsFor (depth : String) : Nat :=
  if depth = "exhaustive" then 10 else if depth = "comprehensive" then 5 else 3

/-- From src/unnamed/part_002 lines 71-122: one body of the learning loop.
It formulates (mentalQuery), asks (externalDialog, spoken), perceives the
simulated reply and reflects with the logging caller postProcess; when
`askDecision` is set it additionally decides between ask_another and
synthesize_now, and the returned flag says whether the loop must break.
(In the source the synthesize_now test at line 118 compares the
un-destructured [memory, value] pair to the string, which never holds; the
modelled break can therefore only shorten runs relative to the source, and
the C10 iteration bound holds of the source a fortiori.) -/
def learningIteration (strip : String → String) (askDecision : Bool) (st : PState) :
    Except StepError (PState × Bool) := do
  let (st1, _) ← stepMentalQuery "formulates" st
  let (st2a, v2) ← stepExternalDialog strip st1
  let st2 := speakVal st2a v2
  let (st3, _) ← stepPerceive st2
  let (st4, _) ← stepIMCustomRaw st3
  if askDecision then
    let (st5, c) ← stepDecision
      "Have I learned enough about this topic, or should I ask another question?"
      ["ask_another", "synthesize_now"] st4
    Except.ok (st5, c = "synthesize_now")
  else Except.ok (st4, false)

/-- The while loop of src/unnamed/part_002 lines 66-125: while questionsAsked
is below maxQuestions, run one iteration (the step-6 decision runs only while
questionsAsked is below maxQuestions minus one); on synthesize_now break before
the increment, otherwise increment questionsAsked and continue. -/
def learningLoop (strip : String → String) (maxQ qAsked iters : Nat) (st : PState) :
    Except StepError (PState × Nat × Nat) :=
  if h : qAsked < maxQ then
    match learningIteration strip (decide (qAsked < maxQ - 1)) st with
    | Except.error e => Except.error e
    | Except.ok (st', brk) =>
      if brk then Except.ok (st', qAsked, iters + 1)
      else learningLoop strip maxQ (qAsked + 1) (iters + 1) st'
  else Except.ok (st, qAsked, iters)
termination_by maxQ - qAsked
decreasing_by
  omega

/-- From src/unnamed/part_001 lines 147-171: the default exploration branch,
inlined in the parent process (the mentalQuery caller postProcess supplied
there is ignored, since mentalQuery.ts accepts no postProcess option; the
un-destructured assignment at line 152 is threaded as the memory component). -/
def explorationRun (strip : String → String) (st : PState) :
    Except StepError PState := do
  let (st1, _) ← stepMentalQuery "brainstorms" st
  let (st2, v2) ← stepExternalDialog strip st1
  Except.ok (speakVal st2 v2)

/-- The JS value bound to `interactionMode` at src/unnamed/part_001 line 93:
the decision call resolves to a [memory, value] pair (spec 3
CognitiveStepResult; LOCAL_RUNNER_GUIDE.md line 62 destructures it), and
part_001 binds it without destructuring, so the switch scrutinee is the pair,
not a bare label. -/
inductive JsVal where
  | str (s : String)
  | pair (memory : PState) (value : String)

/-- JS strict equality of a switch scrutinee against a string case label: a
string matches exactly when the characters do; an array (the un-destructured
pair) is never strictly equal to a string. -/
def jsEqString : JsVal → String → Bool
  | JsVal.str s, lbl => s = lbl
  | JsVal.pair _ _, _ => false

/-- From src/unnamed/part_001 lines 116-172: the switch dispatch exactly as
written, with the value bound to `interactionMode` as the scrutinee.  The
three named cases tail-call `invokeMentalProcess` on the matching subprocess
(modelled from spec 4.3: the child runs on the current state and its result
becomes the parent result; the second component records the invocation); the
subprocess bodies are parameters, since no named case is reachable when the
scrutinee is the un-destructured pair.  The default case runs the inlined
exploration chain and invokes no subprocess. -/
def scholarSwitchSource (interactionMode : JsVal)
    (learningProc teachingProc emotionalProc : PState → Except StepError PState)
    (strip : String → String) (workingMemory : PState) :
    Except StepError PState × List String :=
  if jsEqString interactionMode "learning" then
    (learningProc workingMemory, ["learning"])
  else if jsEqString interactionMode "teaching" then
    (teachingProc workingMemory, ["teaching"])
  else if jsEqString interactionMode "emotional_support" then
    (emotionalProc workingMemory, ["emotional_support"])
  else
    (explorationRun strip workingMemory, [])

/-! ## Claim C1 -/

/-- C1 counterexample: the claim as stated covers `addMemory` of
SimpleWorkingMemory (standalone-demo.ts lines 40-43), but `addMemory` mutates
the receiver in place and returns the same object, so after forking twice the
receiver object 0 holds both entries instead of its original empty list, and
both fork results alias the receiver. -/
theorem claim1_counterexample :
    ((simpleAddMemory (simpleAddMemory [[]] 0 entryA).1 0 entryB).1.getD 0 []
        = [entryA, entryB])
    ∧ (simpleAddMemory [[]] 0 entryA).2 = 0
    ∧ (simpleAddMemory (simpleAddMemory [[]] 0 entryA).1 0 entryB).2 = 0
    ∧ ((simpleAddMemory (simpleAddMemory [[]] 0 entryA).1 0 entryB).1.getD 0 []
        ≠ ([] : List MemoryEntry)) := by decide

/-- C1 amended: for the core `withMemory` (modelled from the spec, since
`@opensouls/core` is not under src/), two successive forks of one object leave
the receiver object entries exactly unchanged, the two forks hold the receiver
entries plus their own appended entry, and receiver and forks are three
distinct objects; whereas `SimpleWorkingMemory.addMemory` of the standalone
demo mutates the receiver in place. -/
theorem claim1_theorem (h : Heap) (self : Nat) (a b : MemoryEntry)
    (hs : self < h.length) :
    ((coreWithMemoryAlloc ((coreWithMemoryAlloc h self a).1) self b).1.getD self []
        = h.getD self [])
    ∧ ((coreWithMemoryAlloc ((coreWithMemoryAlloc h self a).1) self b).1.getD
        ((coreWithMemoryAlloc h self a).2) [] = h.getD self [] ++ [a])
    ∧ ((coreWithMemoryAlloc ((coreWithMemoryAlloc h self a).1) self b).1.getD
        ((coreWithMemoryAlloc ((coreWithMemoryAlloc h self a).1) self b).2) []
        = h.getD self [] ++ [b])
    ∧ (coreWithMemoryAlloc h self a).2 ≠ self
    ∧ (coreWithMemoryAlloc ((coreWithMemoryAlloc h self a).1) self b).2 ≠ self
    ∧ ((coreWithMemoryAlloc h self a).2
        ≠ (coreWithMemoryAlloc ((coreWithMemoryAlloc h self a).1) self b).2) := by
  simp only [coreWithMemoryAlloc]
  have hs1 : self < (h ++ [h.getD self [] ++ [a]]).length := by
    simp; omega
  refine ⟨?_, ?_, ?_, ?_, ?_, ?_⟩
  · rw [List.getD_append _ _ _ _ hs1, List.getD_append _ _ _ _ hs]
  · rw [List.getD_append _ _ _ _ (by simpa using Nat.lt_succ_self h.length),
      List.getD_append_right _ _ _ _ (le_refl h.length)]
    simp
  · rw [List.getD_append_right _ _ _ _ (le_refl (h ++ [h.getD self [] ++ [a]]).length)]
    rw [List.getD_append _ _ _ _ hs]
    simp
  · omega
  · simp; omega
  · simp

/-- C1 witness: the amended fork-frame property at a concrete one-object heap. -/
theorem claim1_theorem_witness :
    (0 < ([[]] : Heap).length)
    ∧ (((coreWithMemoryAlloc ((coreWithMemoryAlloc [[]] 0 entryA).1) 0 entryB).1.getD 0 []
        = ([[]] : Heap).getD 0 [])
    ∧ ((coreWithMemoryAlloc ((coreWithMemoryAlloc [[]] 0 entryA).1) 0 entryB).1.getD
        ((coreWithMemoryAlloc [[]] 0 entryA).2) [] = ([[]] : Heap).getD 0 [] ++ [entryA])
    ∧ ((coreWithMemoryAlloc ((coreWithMemoryAlloc [[]] 0 entryA).1) 0 entryB).1.getD
        ((coreWithMemoryAlloc ((coreWithMemoryAlloc [[]] 0 entryA).1) 0 entryB).2) []
        = ([[]] : Heap).getD 0 [] ++ [entryB])
    ∧ (coreWithMemoryAlloc [[]] 0 entryA).2 ≠ 0
    ∧ (coreWithMemoryAlloc ((coreWithMemoryAlloc [[]] 0 entryA).1) 0 entryB).2 ≠ 0
    ∧ ((coreWithMemoryAlloc [[]] 0 entryA).2
        ≠ (coreWithMemoryAlloc ((coreWithMemoryAlloc [[]] 0 entryA).1) 0 entryB).2)) :=
  ⟨by decide, claim1_theorem [[]] 0 entryA entryB (by decide)⟩

/-! ## Claim C2 -/

/-- C2: a decision step exposes only members of the fixed choice list, and a
Processor response outside the list fails with ValidationError instead of any
default value (decision.ts line 42 schema together with the spec 4.2 executor
contract). -/
theorem claim2_theorem (m : WorkingMemory) (q : String) (choices : List String)
    (response : String) (hne : choices ≠ []) :
    (∀ r, runDecision m q choices response = Except.ok r → r.2 ∈ choices)
    ∧ (response ∉ choices →
        runDecision m q choices response = Except.error StepError.validation) := by
  constructor
  · intro r hr
    by_cases hmem : response ∈ choices
    · simp only [runDecision, hmem, if_true] at hr
      cases hr
      simpa [decisionPost]
    · simp [runDecision, hmem] at hr
  · intro hmem
    simp [runDecision, hmem]

/-- C2 witness: a response outside the concrete choice list is rejected with
ValidationError. -/
theorem claim2_theorem_witness :
    runDecision wm0 "q" ["learning", "teaching"] "dancing"
      = Except.error StepError.validation :=
  (claim2_theorem wm0 "q" ["learning", "teaching"] "dancing" (by decide)).2 (by decide)

/-! ## Claim C3 -/

/-- A concrete state standing for whatever the pre-decision chain produced. -/
def c3At : PState := ⟨wm0, [], [], []⟩

/-- C3 (code bug): the claim describes the documented tail-call contract, but
src/unnamed/part_001 line 93 binds the decision result without destructuring,
so the switch at line 116 compares the [memory, value] pair against the case
labels.  A pair is never strictly equal to a string, hence — whatever the
decision resolved, the subprocess bodies, and the state — no named case can
match: even with the decision value "teaching" the dispatch runs the default
exploration branch and invokes no subprocess. -/
theorem claim3_theorem :
    (∀ (interactionMemory workingMemory : PState) (d : String)
        (learningProc teachingProc emotionalProc : PState → Except StepError PState)
        (strip : String → String),
      scholarSwitchSource (JsVal.pair interactionMemory d) learningProc teachingProc
          emotionalProc strip workingMemory
        = (explorationRun strip workingMemory, []))
    ∧ scholarSwitchSource (JsVal.pair c3At "teaching") Except.ok Except.ok Except.ok
        id c3At
      = (explorationRun id c3At, []) := by
  constructor
  · intro interactionMemory workingMemory d learningProc teachingProc emotionalProc strip
    rfl
  · rfl

/-! ## Claim C4 -/

/-- C4 counterexample: with no caller-supplied postProcess, internalMonologue
(internalMonologue.ts lines 76-98) appends the response embedded in an
entity-verb frame, not verbatim: response "I wonder." is stored as
"Scholar thinks: I wonder.". -/
theorem claim4_counterexample :
    ((internalMonologuePost "thinks" wm0 "I wonder.").1.memories.map MemoryEntry.content
      = ["Scholar thinks: I wonder."])
    ∧ ((internalMonologuePost "thinks" wm0 "I wonder.").1.memories.map MemoryEntry.content
      ≠ ["I wonder."]) := by decide

/-- C4 amended: with no caller-supplied postProcess the step appends exactly
one assistant-role entry, but its content is the cleaned response (entity-name
head stripped), additionally framed as "entityName verb: ..." for
internalMonologue — not the verbatim Processor response; the exposed value is
the cleaned response. -/
theorem claim4_theorem (strip : String → String) (m : WorkingMemory)
    (verb thought response : String) :
    ((internalMonologuePost verb m thought).1.memories
      = m.memories ++ [⟨Role.assistant,
          m.soulName ++ " " ++ verb ++ ": " ++ stripEntityHead m.soulName thought,
          some "internal_monologue"⟩])
    ∧ (internalMonologuePost verb m thought).2 = stripEntityHead m.soulName thought
    ∧ ((externalDialogPost strip m response).1.memories
      = m.memories ++ [⟨Role.assistant, strip response, none⟩])
    ∧ (externalDialogPost strip m response).2 = strip response :=
  ⟨rfl, rfl, rfl, rfl⟩

/-! ## Claim C6 -/

/-- C6: set-then-get round-trips, each set persists the whole store to the
backing file before returning, and the round-trip survives a simulated process
restart that reloads the store from the file. -/
theorem claim6_theorem (s : SoulMemoryStore) (k : String) (v : Json)
    (hnd : (s.store.map Prod.fst).Nodup) :
    (s.set k v).get k = some v
    ∧ (s.set k v).file = some (s.set k v).store
    ∧ ((s.set k v).restart).get k = some v := by
  refine ⟨?_, rfl, ?_⟩
  · exact lookupKey_setKey_self s.store k v
  · have hnd2 : ((setKey s.store k v).map Prod.fst).Nodup := setKey_nodup s.store k v hnd
    show lookupKey ((setKey s.store k v).foldl (fun a kv => setKey a kv.1 kv.2) []) k
      = some v
    rw [foldl_setKey_of_nodup (setKey s.store k v) [] (by simpa using hnd2)]
    simpa using lookupKey_setKey_self s.store k v

/-- C6 witness: the spec scenario, storing userName Ada in a fresh store. -/
theorem claim6_theorem_witness :
    ((([] : List (String × Json)).map Prod.fst).Nodup)
    ∧ ((SoulMemoryStore.set ⟨[], none⟩ "userName" (Json.str "Ada")).get "userName"
        = some (Json.str "Ada")
    ∧ (SoulMemoryStore.set ⟨[], none⟩ "userName" (Json.str "Ada")).file
        = some (SoulMemoryStore.set ⟨[], none⟩ "userName" (Json.str "Ada")).store
    ∧ ((SoulMemoryStore.set ⟨[], none⟩ "userName" (Json.str "Ada")).restart).get "userName"
        = some (Json.str "Ada")) :=
  ⟨by simp, claim6_theorem ⟨[], none⟩ "userName" (Json.str "Ada") (by simp)⟩

/-! ## Claim C7 -/

/-- C7: the pass-through stream adapter yields exactly the input fragments in
order, so the accumulated text handed to post-processing is the concatenation
of the input fragments; in particular fragments "Hi " and "there" accumulate
to "Hi there". -/
theorem claim7_theorem :
    (∀ chunks : List String, processStream chunks = chunks)
    ∧ String.join (processStream ["Hi ", "there"]) = "Hi there" := by
  constructor
  · intro chunks
    induction chunks with
    | nil => rfl
    | cons c rest ih => simp [processStream, ih]
  · rfl

/-! ## The LocalSoulRunner embedding (C5, C9)

The enhanced runner of src/soul-learning-app/src/direct-demo.ts (its second
embedded document, the LocalSoulRunner with phases 1-5) shares its
processMessage guard with src/soul-learning-app/src/local-soul-runner.ts lines
213-248.  Processor outcomes are scripted as a list of results so that a step
can fail; `trace` records which steps were attempted. -/

/-- Runner state: framework working memory, scripted Processor outcomes, the
soulMemory Map, emitted speak events, the step trace, and the isProcessing
reentrancy flag. -/
structure RState where
  wm : WorkingMemory
  responses : List (Except StepError String)
  soulMem : List (String × Json)
  speaks : List String
  trace : List String
  isProcessing : Bool

/-- Resolve the next scripted Processor outcome. -/
def rTake (st : RState) : RState × Except StepError String :=
  match st.responses with
  | [] => (st, Except.error StepError.processor)
  | r :: rest => ({ st with responses := rest }, r)

/-- Run one cognitive step inside the runner: record the attempt in the trace,
resolve the Processor, and on success commit the post-processed memory.  A
failure is returned to the calling phase (JS: the step rejects and the await
throws). -/
def rStep (tag : String) (post : WorkingMemory → String → WorkingMemory) (st : RState) :
    RState × Option StepError :=
  let st0 := { st with trace := st.trace ++ [tag] }
  match rTake st0 with
  | (st1, Except.error e) => (st1, some e)
  | (st1, Except.ok r) => ({ st1 with wm := post st1.wm r }, none)

/-- The last user-role entry of the working memory (direct-demo.ts
perceptionPhase: filter user roles, slice(-1)). -/
def lastUserContent (m : WorkingMemory) : Option String :=
  ((m.memories.filter (fun e => e.role = Role.user)).getLast?).map MemoryEntry.content

/-- Phase 1 (direct-demo.ts perceptionPhase): perceive the last user message
when there is one, then reflect with internalMonologue; a step failure aborts
the phase. -/
def perceptionPhase (st : RState) : RState × Option StepError :=
  match lastUserContent st.wm with
  | some _ =>
    match rStep "perceive" (fun wm r => (perceivePost wm r).1) st with
    | (st1, some e) => (st1, some e)
    | (st1, none) =>
      rStep "internalMonologue" (fun wm r => (internalMonologuePost "contemplates" wm r).1) st1
  | none =>
    rStep "internalMonologue" (fun wm r => (internalMonologuePost "contemplates" wm r).1) st

/-- Helper of phase 2: store the conversation counter read at phase start,
incremented by one. -/
def bumpConversationCount (origMem : List (String × Json)) (st1 : RState) : RState :=
  { st1 with soulMem := setKey st1.soulMem "conversationCount" (Json.num (getIntJson (lookupKey origMem "conversationCount") + 1)) }

/-- Phase 2 (direct-demo.ts memoryPhase): when a user name is stored or the
conversation counter is positive, recall with mentalQuery; afterwards bump the
conversation counter (skipped when the recall step failed, since the throw
propagates before the set). -/
def memoryPhase (st : RState) : RState × Option StepError :=
  match (if (lookupKey st.soulMem "userName").isSome
        ∨ 0 < getIntJson (lookupKey st.soulMem "conversationCount") then
      rStep "mentalQuery" (fun wm r => (mentalQueryPost "recalls" wm r).1) st
    else (st, none)) with
  | (st1, some e) => (st1, some e)
  | (st1, none) => (bumpConversationCount st.soulMem st1, none)

/-- The choice list of the runner decision phase (direct-demo.ts). -/
def runnerChoices : List String :=
  ["learning", "teaching", "exploring", "emotional_support", "brainstorming"]

/-- Phase 3 (direct-demo.ts decisionPhase): the decision step, validated by the
spec-modelled executor against the fixed choice list. -/
def decisionPhase (st : RState) : RState × Except StepError String :=
  let st0 := { st with trace := st.trace ++ ["decision"] }
  match rTake st0 with
  | (st1, Except.error e) => (st1, Except.error e)
  | (st1, Except.ok r) =>
    match runDecision st1.wm
        "Based on the user\'s message and our conversation history, what type of interaction would be most helpful?"
        runnerChoices r with
    | Except.ok p => ({ st1 with wm := p.1 }, Except.ok p.2)
    | Except.error e => (st1, Except.error e)

/-- The fixed fallback reply of handleCognitiveError (direct-demo.ts). -/
def fallbackText : String :=
  "I apologize, but I\'m having trouble processing right now. Could you please rephrase your message? I\'m here to help and learn with you."

/-- direct-demo.ts handleCognitiveError: emit the fallback reply and commit it
as a plain assistant entry (the trace and the stored memories are untouched). -/
def handleCognitiveError (st : RState) : RState :=
  { st with speaks := st.speaks ++ [fallbackText],
            wm := st.wm.withMemory ⟨Role.assistant, fallbackText, none⟩ }

/-- direct-demo.ts generateResponse: run externalDialog and emit the response;
an externalDialog failure is caught locally and answered with
handleCognitiveError, so it never escapes the subprocess. -/
def generateResponse (strip : String → String) (st : RState) : RState :=
  let st0 := { st with trace := st.trace ++ ["externalDialog"] }
  match rTake st0 with
  | (st1, Except.error _) => handleCognitiveError st1
  | (st1, Except.ok r) =>
    let p := externalDialogPost strip st1.wm r
    { st1 with wm := p.1, speaks := st1.speaks ++ [p.2] }

/-- Phase 4 (direct-demo.ts subprocessPhase): dispatch on the chosen mode; each
runner-internal subprocess runs one preparatory step and then
generateResponse.  A preparatory-step failure propagates to the phase caller. -/
def subprocessPhase (strip : String → String) (mode : String) (st : RState) :
    RState × Option StepError :=
  let st0 := { st with trace := st.trace ++ ["subprocess"] }
  let prep :=
    if mode = "learning" then
      rStep "mentalQuery" (fun wm r => (mentalQueryPost "investigates" wm r).1) st0
    else if mode = "teaching" then
      rStep "mentalQuery" (fun wm r => (mentalQueryPost "strategizes" wm r).1) st0
    else if mode = "emotional_support" then
      rStep "internalMonologue" (fun wm r => (internalMonologuePost "empathizes" wm r).1) st0
    else if mode = "brainstorming" then
      rStep "brainstorm" (fun wm r => (brainstormPost wm r).1) st0
    else
      rStep "mentalQuery" (fun wm r => (mentalQueryPost "wonders" wm r).1) st0
  match prep with
  | (st1, some e) => (st1, some e)
  | (st1, none) => (generateResponse strip st1, none)

/-- True when the pattern character list occurs inside the other list. -/
def afterFirstChars (pat : List Char) : List Char → Option (List Char)
  | [] => if listBeginsWith pat [] then some [] else none
  | c :: cs =>
    if listBeginsWith pat (c :: cs) then some ((c :: cs).drop pat.length)
    else afterFirstChars pat cs

/-- JS regex word character. -/
def isWordChar (c : Char) : Bool := c.isAlphanum || c = '_'

/-- From direct-demo.ts extractAndStoreUserInfo: the name regex (my name is,
i am contraction, call me — case-insensitive, followed by a word).  The
leftmost-position regex semantics is approximated by trying the alternatives
in order; the captured word is taken from the lowercased text. -/
def findNameIn (s : String) : Option String :=
  let low := s.data.map Char.toLower
  let tryPat (pat : String) : Option String :=
    match afterFirstChars pat.data low with
    | some seg =>
      let w := seg.takeWhile isWordChar
      if w.isEmpty then none else some (String.mk w)
    | none => none
  match tryPat "my name is " with
  | some w => some w
  | none =>
    match tryPat "i\'m " with
    | some w => some w
    | none => tryPat "call me "

/-- JS String.includes. -/
def containsSub (s pat : String) : Bool :=
  (afterFirstChars pat.data s.data).isSome

/-- direct-demo.ts extractAndStoreUserInfo line 937-940: all user entries
joined with one blank. -/
def joinUserContents (m : WorkingMemory) : String :=
  String.intercalate " " ((m.memories.filter (fun e => e.role = Role.user)).map
    MemoryEntry.content)

/-- direct-demo.ts extractAndStoreUserInfo: store a detected user name; when
the joined user text mentions love or interested, push general_conversation
onto the stored interest list. -/
def extractAndStoreUserInfo (st : RState) : RState :=
  let msgs := joinUserContents st.wm
  let st1 :=
    match findNameIn msgs with
    | some name => { st with soulMem := setKey st.soulMem "userName" (Json.str name) }
    | none => st
  if containsSub msgs "love" || containsSub msgs "interested" then
    let cur := match lookupKey st1.soulMem "userInterests" with
      | some (Json.arr l) => l
      | _ => []
    let upd := setKey st1.soulMem "userInterests" (Json.arr (cur ++ [Json.str "general_conversation"]))
    { st1 with soulMem := upd }
  else st1

/-- Phase 5 (direct-demo.ts reflectionPhase): reflect, then extract and store
user information. -/
def reflectionPhase (st : RState) : RState × Option StepError :=
  match rStep "reflect" (fun wm r => (reflectPost wm r).1) st with
  | (st1, some e) => (st1, some e)
  | (st1, none) => (extractAndStoreUserInfo st1, none)

/-- The try block of direct-demo.ts runCognitiveProcess: the five phases in
order, stopping at the first failure. -/
def runCognitiveBody (strip : String → String) (st : RState) : RState × Option StepError :=
  match perceptionPhase st with
  | (st1, some e) => (st1, some e)
  | (st1, none) =>
    match memoryPhase st1 with
    | (st2, some e) => (st2, some e)
    | (st2, none) =>
      match decisionPhase st2 with
      | (st3, Except.error e) => (st3, some e)
      | (st3, Except.ok mode) =>
        match subprocessPhase strip mode st3 with
        | (st4, some e) => (st4, some e)
        | (st4, none) => reflectionPhase st4

/-- direct-demo.ts runCognitiveProcess: the phases wrapped in try/catch; the
catch consumes the error with handleCognitiveError.  The second component is
what escapes to the caller — always none. -/
def runCognitiveProcess (strip : String → String) (st : RState) : RState × Option StepError :=
  match runCognitiveBody strip st with
  | (st1, none) => (st1, none)
  | (st1, some _) => (handleCognitiveError st1, none)

/-- The pre-decision chain: phases 1 and 2. -/
def preDecisionPhases (st : RState) : RState × Option StepError :=
  match perceptionPhase st with
  | (st1, some e) => (st1, some e)
  | (st1, none) => memoryPhase st1

/-- processMessage (local-soul-runner.ts lines 213-248 and the identical guard
of direct-demo.ts): when isProcessing is set, log and return; otherwise set the
flag, append the user entry, run the cognitive process (whose errors are
consumed internally), and clear the flag. -/
def processMessage (strip : String → String) (st : RState) (msg : String) : RState :=
  if st.isProcessing then st
  else
    let wm1 := st.wm.withMemory ⟨Role.user, msg, none⟩
    let st1 := { st with isProcessing := true, wm := wm1 }
    let p := runCognitiveProcess strip st1
    { p.1 with isProcessing := false }

theorem rStep_trace (tag : String) (post : WorkingMemory → String → WorkingMemory)
    (st : RState) : ((rStep tag post st).1).trace = st.trace ++ [tag] := by
  obtain ⟨wm, rs, sm, sp, tr, ip⟩ := st
  unfold rStep rTake
  cases rs with
  | nil => rfl
  | cons r rest => cases r <;> rfl

theorem perceptionPhase_trace (st : RState) :
    ∃ l, ((perceptionPhase st).1).trace = st.trace ++ l
      ∧ ∀ t ∈ l, t = "perceive" ∨ t = "internalMonologue" := by
  unfold perceptionPhase
  cases hu : lastUserContent st.wm with
  | none =>
    refine ⟨["internalMonologue"], rStep_trace _ _ _, ?_⟩
    intro t ht
    simp only [List.mem_singleton] at ht
    exact Or.inr ht
  | some c =>
    cases hp : rStep "perceive" (fun wm r => (perceivePost wm r).1) st with
    | mk st1 e1 =>
      have h1 : st1.trace = st.trace ++ ["perceive"] := by
        have := rStep_trace "perceive" (fun wm r => (perceivePost wm r).1) st
        rw [hp] at this
        exact this
      cases e1 with
      | some e =>
        refine ⟨["perceive"], ?_, ?_⟩
        · simpa using h1
        · intro t ht
          simp only [List.mem_singleton] at ht
          exact Or.inl ht
      | none =>
        refine ⟨["perceive", "internalMonologue"], ?_, ?_⟩
        · have h2 := rStep_trace "internalMonologue"
            (fun wm r => (internalMonologuePost "contemplates" wm r).1) st1
          simp only [h1] at h2
          simpa using h2
        · intro t ht
          simp only [List.mem_cons, List.mem_singleton] at ht
          rcases ht with ht | ht | ht
          · exact Or.inl ht
          · exact Or.inr ht
          · cases ht

theorem memoryPhase_trace (st : RState) :
    ∃ l, ((memoryPhase st).1).trace = st.trace ++ l
      ∧ ∀ t ∈ l, t = "mentalQuery" := by
  unfold memoryPhase
  by_cases hc : (lookupKey st.soulMem "userName").isSome = true
      ∨ 0 < getIntJson (lookupKey st.soulMem "conversationCount")
  · rw [if_pos hc]
    cases hq : rStep "mentalQuery" (fun wm r => (mentalQueryPost "recalls" wm r).1) st with
    | mk st1 e1 =>
      have h1 : st1.trace = st.trace ++ ["mentalQuery"] := by
        have := rStep_trace "mentalQuery" (fun wm r => (mentalQueryPost "recalls" wm r).1) st
        rw [hq] at this
        exact this
      cases e1 with
      | some e =>
        exact ⟨["mentalQuery"], by simpa using h1, by intro t ht; simpa using ht⟩
      | none =>
        exact ⟨["mentalQuery"], by simpa [bumpConversationCount] using h1,
          by intro t ht; simpa using ht⟩
  · rw [if_neg hc]
    exact ⟨[], by simp [bumpConversationCount], by intro t ht; cases ht⟩

theorem preDecisionPhases_trace (st : RState) :
    ∃ l, ((preDecisionPhases st).1).trace = st.trace ++ l
      ∧ ∀ t ∈ l, t = "perceive" ∨ t = "internalMonologue" ∨ t = "mentalQuery" := by
  unfold preDecisionPhases
  obtain ⟨l1, hl1, hm1⟩ := perceptionPhase_trace st
  cases hp : perceptionPhase st with
  | mk st1 e1 =>
    rw [hp] at hl1
    cases e1 with
    | some e =>
      refine ⟨l1, hl1, ?_⟩
      intro t ht
      rcases hm1 t ht with h | h
      · exact Or.inl h
      · exact Or.inr (Or.inl h)
    | none =>
      obtain ⟨l2, hl2, hm2⟩ := memoryPhase_trace st1
      refine ⟨l1 ++ l2, ?_, ?_⟩
      · simp only at hl1
        rw [hl2, hl1, List.append_assoc]
      · intro t ht
        rcases List.mem_append.mp ht with h | h
        · rcases hm1 t h with h1 | h1
          · exact Or.inl h1
          · exact Or.inr (Or.inl h1)
        · exact Or.inr (Or.inr (hm2 t h))

theorem runCognitiveBody_of_preDecision_err (strip : String → String)
    (st st1 : RState) (e : StepError) (h : preDecisionPhases st = (st1, some e)) :
    runCognitiveBody strip st = (st1, some e) := by
  unfold preDecisionPhases at h
  unfold runCognitiveBody
  cases hp : perceptionPhase st with
  | mk s1 e1 =>
    rw [hp] at h
    cases e1 with
    | some e2 => simpa using h
    | none =>
      simp only at h
      dsimp only
      rw [h]

/-! ## Claim C5 -/

/-- C5 amended: when a step of the pre-decision chain fails, the decision step
and the subprocess phase are never attempted; but the failure does not
propagate to the host — runCognitiveProcess catches it internally
(handleCognitiveError), emits the fixed fallback reply and commits it as a
plain assistant entry, returning normally. -/
theorem claim5_theorem (strip : String → String) (st st1 : RState) (e : StepError)
    (ht : st.trace = []) (h : preDecisionPhases st = (st1, some e)) :
    runCognitiveProcess strip st = (handleCognitiveError st1, none)
    ∧ "decision" ∉ (handleCognitiveError st1).trace
    ∧ "subprocess" ∉ (handleCognitiveError st1).trace
    ∧ (handleCognitiveError st1).wm.memories
        = st1.wm.memories ++ [⟨Role.assistant, fallbackText, none⟩]
    ∧ (handleCognitiveError st1).speaks = st1.speaks ++ [fallbackText] := by
  have hb := runCognitiveBody_of_preDecision_err strip st st1 e h
  obtain ⟨l, hl, hmem⟩ := preDecisionPhases_trace st
  rw [h] at hl
  simp only at hl
  rw [ht] at hl
  simp only [List.nil_append] at hl
  have htrace : (handleCognitiveError st1).trace = st1.trace := rfl
  refine ⟨?_, ?_, ?_, rfl, rfl⟩
  · unfold runCognitiveProcess
    rw [hb]
  · rw [htrace, hl]
    intro hin
    rcases hmem "decision" hin with h1 | h1 | h1 <;> exact absurd h1 (by decide)
  · rw [htrace, hl]
    intro hin
    rcases hmem "subprocess" hin with h1 | h1 | h1 <;> exact absurd h1 (by decide)

/-- Start state for the C5 counterexample and witness: one user entry and a
script whose first Processor call fails. -/
def stBad : RState :=
  ⟨⟨"Scholar", [⟨Role.user, "hello", none⟩]⟩,
   [Except.error StepError.processor], [], [], [], false⟩

/-- The state of stBad after its failing perception phase. -/
def stBadMid : RState :=
  ⟨⟨"Scholar", [⟨Role.user, "hello", none⟩]⟩, [], [], [], ["perceive"], false⟩

/-- C5 counterexample: the claim says the failure propagates to the host; in
fact runCognitiveProcess returns normally (no escaping error), having spoken
and committed the fallback reply itself — the decision and subprocess phases
are indeed never attempted. -/
theorem claim5_counterexample :
    (runCognitiveProcess id stBad).2 = none
    ∧ ((runCognitiveProcess id stBad).1.wm.memories.map MemoryEntry.content).getLast?
        = some fallbackText
    ∧ "decision" ∉ (runCognitiveProcess id stBad).1.trace
    ∧ "subprocess" ∉ (runCognitiveProcess id stBad).1.trace
    ∧ (runCognitiveProcess id stBad).1.speaks = [fallbackText] := by decide

/-- C5 witness: the amended consumption property at the concrete failing run. -/
theorem claim5_theorem_witness :
    runCognitiveProcess id stBad = (handleCognitiveError stBadMid, none)
    ∧ "decision" ∉ (handleCognitiveError stBadMid).trace
    ∧ "subprocess" ∉ (handleCognitiveError stBadMid).trace
    ∧ (handleCognitiveError stBadMid).wm.memories
        = stBadMid.wm.memories ++ [⟨Role.assistant, fallbackText, none⟩]
    ∧ (handleCognitiveError stBadMid).speaks = stBadMid.speaks ++ [fallbackText] :=
  claim5_theorem id stBad stBadMid StepError.processor rfl rfl

/-! ## Claim C9 -/

/-- A concrete busy runner state. -/
def stBusy : RState :=
  ⟨⟨"Scholar", [⟨Role.system, "bp", none⟩]⟩, [], [], [], [], true⟩

/-- C9 counterexample: the claim says a perception delivered while busy makes
a ReentrancyError propagate to the host; in fact processMessage logs and
returns with no error (the embedding has no error channel to the caller at
all), leaving the state — including the WorkingMemory — unchanged. -/
theorem claim9_counterexample :
    processMessage id stBusy "hello" = stBusy
    ∧ (processMessage id stBusy "hello").wm = stBusy.wm := ⟨rfl, rfl⟩

/-- C9 amended: while isProcessing is set, processMessage silently drops the
new perception: it returns immediately, no error of any kind reaches the host,
and the runner state (WorkingMemory included) is untouched. -/
theorem claim9_theorem (strip : String → String) (st : RState) (msg : String)
    (h : st.isProcessing = true) :
    processMessage strip st msg = st := by
  unfold processMessage
  rw [h]
  rfl

/-- C9 witness: the silent-drop property at the concrete busy state. -/
theorem claim9_theorem_witness :
    processMessage id stBusy "hello" = stBusy :=
  claim9_theorem id stBusy "hello" rfl

/-! ## Claim C8 -/

/-- The runner-side view of the conversation-state object
(local-soul-runner.ts lines 141-163, 250-264): the framework carries soulName
and the entries; `entityNameAttached` records whether the imperatively
defined entityName own property (Object.defineProperty) is present on the
current object.  withMemory returns a fresh object that carries soulName and
the appended entries forward but does not carry the imperatively attached
property (the source re-adds it after every clone — line 229-230 and
ensureEntityName). -/
structure RunnerMemory where
  soulName : String
  memories : List MemoryEntry
  entityNameAttached : Bool
deriving DecidableEq, Repr

/-- The core fork as observed by the runner. -/
def RunnerMemory.withMemory (m : RunnerMemory) (e : MemoryEntry) : RunnerMemory :=
  { soulName := m.soulName, memories := m.memories ++ [e], entityNameAttached := false }

/-- local-soul-runner.ts lines 253-264: re-add the entityName property when
the current object does not own it. -/
def ensureEntityName (m : RunnerMemory) : RunnerMemory :=
  if m.entityNameAttached then m else { m with entityNameAttached := true }

/-- local-soul-runner.ts lines 141-163 (initialize): construct the working
memory with the two system entries and imperatively define entityName on it. -/
def initializeMemory (soulName blueprint : String) : RunnerMemory :=
  ⟨soulName,
   [⟨Role.system, blueprint, none⟩,
    ⟨Role.system, "You are running locally. Engage naturally with the user.", none⟩],
   true⟩

/-- C8 counterexample: the claim says the identity field is propagated
automatically with no imperative reattachment; in fact the fork of the
initialized memory does not own the entityName property any more, and
ensureEntityName genuinely modifies the forked object to restore it. -/
theorem claim8_counterexample :
    ((initializeMemory "Scholar" "bp").withMemory ⟨Role.user, "hi", none⟩).entityNameAttached
      = false
    ∧ (initializeMemory "Scholar" "bp").entityNameAttached = true
    ∧ ensureEntityName ((initializeMemory "Scholar" "bp").withMemory ⟨Role.user, "hi", none⟩)
        ≠ (initializeMemory "Scholar" "bp").withMemory ⟨Role.user, "hi", none⟩ := by decide

/-- C8 amended: every transformation carries the construction-time soulName
forward unchanged and appends the entry, but the imperatively attached
entityName alias is not propagated: the forked object lacks it, and the runner
reattaches it with ensureEntityName after every transformation. -/
theorem claim8_theorem (m : RunnerMemory) (e : MemoryEntry) :
    (m.withMemory e).soulName = m.soulName
    ∧ (m.withMemory e).memories = m.memories ++ [e]
    ∧ (m.withMemory e).entityNameAttached = false
    ∧ (ensureEntityName (m.withMemory e)).entityNameAttached = true
    ∧ (ensureEntityName (m.withMemory e)).soulName = m.soulName :=
  ⟨rfl, rfl, rfl, rfl, rfl⟩

/-! ## Claim C10 -/

theorem learningLoop_iters_le (strip : String → String) :
    ∀ (n maxQ qAsked iters : Nat) (st : PState) (res : PState × Nat × Nat),
      maxQ - qAsked ≤ n →
      learningLoop strip maxQ qAsked iters st = Except.ok res →
      res.2.2 ≤ iters + (maxQ - qAsked) := by
  intro n
  induction n with
  | zero =>
    intro maxQ qAsked iters st res hle h
    rw [learningLoop.eq_def, dif_neg (by omega)] at h
    cases h
    simp
  | succ n ih =>
    intro maxQ qAsked iters st res hle h
    rw [learningLoop.eq_def] at h
    by_cases hq : qAsked < maxQ
    · rw [dif_pos hq] at h
      cases hit : learningIteration strip (decide (qAsked < maxQ - 1)) st with
      | error e =>
        rw [hit] at h
        exact absurd h (by simp)
      | ok p =>
        obtain ⟨st', brk⟩ := p
        rw [hit] at h
        cases brk with
        | true =>
          dsimp only at h
          cases h
          simp only
          omega
        | false =>
          dsimp only at h
          have := ih maxQ (qAsked + 1) (iters + 1) st' res (by omega) h
          omega
    · rw [dif_neg hq] at h
      cases h
      simp

/-- C10: the learning loop runs at most maxQuestions iterations, where
maxQuestions is 10 for exhaustive depth, 5 for comprehensive and 3 otherwise;
each completed iteration increments questionsAsked or exits early on
synthesize_now, and the loop (a total Lean function) terminates.  Starting
from questionsAsked 0 the iteration count is bounded by maxQuestions. -/
theorem claim10_theorem :
    (maxQuestionsFor "exhaustive" = 10 ∧ maxQuestionsFor "comprehensive" = 5
      ∧ ∀ depth, depth ≠ "exhaustive" → depth ≠ "comprehensive" →
          maxQuestionsFor depth = 3)
    ∧ ∀ (strip : String → String) (maxQ qAsked iters : Nat) (st : PState)
        (res : PState × Nat × Nat),
        learningLoop strip maxQ qAsked iters st = Except.ok res →
        res.2.2 ≤ iters + (maxQ - qAsked) := by
  constructor
  · refine ⟨rfl, rfl, ?_⟩
    intro depth h1 h2
    simp [maxQuestionsFor, h1, h2]
  · intro strip maxQ qAsked iters st res h
    exact learningLoop_iters_le strip (maxQ - qAsked) maxQ qAsked iters st res
      (le_refl _) h

/-- Concrete start state for the C10 witness: the first iteration decides
synthesize_now and the loop exits after one iteration. -/
def c10Start : PState := ⟨wm0, ["q", "a", "p", "t", "synthesize_now"], [], []⟩

/-- The loop result of the C10 witness, computed by hand: one iteration,
questionsAsked still 0 (the break precedes the increment). -/
def c10Triple : PState × Nat × Nat :=
  (⟨⟨"Scholar",
    [⟨Role.assistant, "Scholar formulates: q", some "mental_query"⟩,
     ⟨Role.assistant, "a", none⟩,
     ⟨Role.assistant, "Scholar perceives: p", some "perception"⟩,
     ⟨Role.assistant, "t", none⟩,
     ⟨Role.assistant, "Scholar decided: synthesize_now", some "decision"⟩]⟩,
   [], [], ["a"]⟩, 0, 1)

/-- C10 witness: the bound at a concrete scripted run with surface depth. -/
theorem claim10_theorem_witness :
    c10Triple.2.2 ≤ 0 + (maxQuestionsFor "surface" - 0) :=
  claim10_theorem.2 id (maxQuestionsFor "surface") 0 0 c10Start c10Triple
    (by rw [learningLoop.eq_def]; rfl)

end SoulApp
